import Mathlib

/-!
Shallow embedding of `src/nd_intersects/nd_intersects.py`.

The repository's core is two functions:

* `do_sjoin(df1, df2, op, ptid, pgid, keep_columns, how="left", fillna="NaN")` —
  performs a geopandas left spatial join, projects to `keep_columns`
  (appending the left geometry column name in place when absent), and
  overwrites null right-id cells with the `fillna` sentinel.
* `nd_intersects(pnts, pgons, ptid, pgid, keep_columns)` — appends the
  geometry column name to `keep_columns` in place when absent, calls
  `do_sjoin`, groups the pair rows by point id (pandas `groupby`, which
  iterates group keys in sorted order), folds each group with the nested
  `_row` helper `(_p, "-".join(_g[pgid]), *_g.geometry.unique())`, and
  assigns the folded tuples positionally into a shell dataframe indexed by
  `pnts.index` — an assignment that raises when the number of tuples
  differs from the number of points or a tuple's width differs from the
  column count.

Geometries are an opaque type `G` with decidable equality (the spec's
"geometric equality ... exact coordinate match").  The external spatial
join is modelled from its contract: for each left row in order, one pair
row per matching right row (right rows in input order), or a single
null-right row when nothing matches.  Python's in-place mutation of the
caller's `keep_columns` list is modelled by explicit state passing: both
functions return the final `keep_columns` alongside their result.
-/

/-- A row of the points GeoDataFrame: a point id and a point geometry. -/
structure PntRec (G : Type) where
  ptid : String
  geom : G
deriving DecidableEq, Repr

/-- A row of the polygons GeoDataFrame: a polygon id and a polygon geometry. -/
structure PgonRec (G : Type) where
  pgid : String
  geom : G
deriving DecidableEq, Repr

/-- A raw pair row produced by `geopandas.sjoin(..., how="left")`: the left
point's id and geometry, and the matched polygon id, `none` when the left
row matched nothing. -/
structure PairRow (G : Type) where
  ptid : String
  pgid : Option String
  geom : G
deriving DecidableEq, Repr

/-- A pair row after `do_sjoin`'s fillna step: the polygon-id cell is a
plain string (the sentinel where the raw cell was null). -/
structure FilledRow (G : Type) where
  ptid : String
  pgid : String
  geom : G
deriving DecidableEq, Repr

/-- An output row of `nd_intersects`: the group key, the hyphen-joined
polygon-id string, and the trailing distinct geometries of the group
(the splatted `*_g.geometry.unique()`). -/
structure OutRow (G : Type) where
  ptid : String
  pgidStr : String
  geoms : List G
deriving DecidableEq, Repr

/-- `keep_columns += [geom_name]` when absent (lines 41-42 and 86-87 of the
source): the caller's list is extended in place, modelled as the returned
updated list. -/
def updateKeep (geomName : String) (kc : List String) : List String :=
  if geomName ∈ kc then kc else kc ++ [geomName]

/-- The pair rows `geopandas.sjoin(df1, df2, how="left", op=op)` contributes
for one left row `p`: one row per polygon satisfying the predicate (in the
polygons' input order), or a single null-right row when none does. -/
def rawRows {G : Type} (pred : G → G → Bool) (pgons : List (PgonRec G))
    (p : PntRec G) : List (PairRow G) :=
  let ms := pgons.filter fun q => pred p.geom q.geom
  if ms.isEmpty then [⟨p.ptid, none, p.geom⟩]
  else ms.map fun q => ⟨p.ptid, some q.pgid, p.geom⟩

/-- The full raw left spatial join: left rows in order, each contributing
its `rawRows` block. -/
def sjoinRaw {G : Type} (pred : G → G → Bool) (pnts : List (PntRec G))
    (pgons : List (PgonRec G)) : List (PairRow G) :=
  pnts.flatMap (rawRows pred pgons)

/-- The fillna step (line 93): `df3.loc[(df3[pgid].isna()), pgid] = fillna`
overwrites a null polygon-id cell with the sentinel, leaves others alone. -/
def fillRow {G : Type} (fill : String) (r : PairRow G) : FilledRow G :=
  ⟨r.ptid, r.pgid.getD fill, r.geom⟩

/-- The row table produced by `do_sjoin`: the raw left join with null
right-id cells overwritten by the sentinel. -/
def sjoinRows {G : Type} (pred : G → G → Bool) (pnts : List (PntRec G))
    (pgons : List (PgonRec G)) (fill : String) : List (FilledRow G) :=
  (sjoinRaw pred pnts pgons).map (fillRow fill)

/-- `do_sjoin` (lines 56-95): returns the filled, projected pair-row table
together with the final state of the caller's `keep_columns` list. -/
def do_sjoin {G : Type} (pred : G → G → Bool) (pnts : List (PntRec G))
    (pgons : List (PgonRec G)) (kc : List String) (geomName : String)
    (fill : String) : List (FilledRow G) × List String :=
  (sjoinRows pred pnts pgons fill, updateKeep geomName kc)

/-- First-occurrence deduplication worker: keeps an element when it has not
been seen yet.  This is the semantics of pandas `Series.unique`, which
returns the distinct values in order of appearance. -/
def fdGo {α : Type} [DecidableEq α] (seen : List α) : List α → List α
  | [] => []
  | a :: l => if a ∈ seen then fdGo seen l else a :: fdGo (a :: seen) l

/-- First-occurrence deduplication (pandas `unique`). -/
def firstDedup {α : Type} [DecidableEq α] (l : List α) : List α :=
  fdGo [] l

/-- Lexicographic comparison of character lists by codepoint, the order in
which pandas sorts string group keys. -/
def charListLe : List Char → List Char → Bool
  | [], _ => true
  | _ :: _, [] => false
  | a :: as, b :: bs => if a < b then true else if b < a then false else charListLe as bs

/-- Lexicographic string comparison by codepoint. -/
def strLe (a b : String) : Bool :=
  charListLe a.data b.data

/-- Insert an element into a list in front of the first element it compares
at-or-below. -/
def insertSorted {α : Type} (le : α → α → Bool) (a : α) : List α → List α
  | [] => [a]
  | b :: l => if le a b then a :: b :: l else b :: insertSorted le a l

/-- Insertion sort with a boolean comparator. -/
def sortBy {α : Type} (le : α → α → Bool) : List α → List α
  | [] => []
  | a :: l => insertSorted le a (sortBy le l)

/-- The group keys of `igdf.groupby(ptid)`: pandas' default `sort=True`
iterates the distinct key values in ascending sorted order. -/
def groupKeys {G : Type} (rows : List (FilledRow G)) : List String :=
  sortBy strLe (firstDedup (rows.map FilledRow.ptid))

/-- The rows of one group: the pair rows carrying the key, in table order. -/
def groupRows {G : Type} (rows : List (FilledRow G)) (k : String) :
    List (FilledRow G) :=
  rows.filter fun r => r.ptid == k

/-- The nested `_row` helper (lines 37-39):
`(_p, "-".join(_g[pgid]), *_g.geometry.unique())` — the polygon ids of the
group joined with "-" (no deduplication), then the distinct geometries. -/
def rowFold {G : Type} [DecidableEq G] (k : String) (g : List (FilledRow G)) :
    OutRow G :=
  ⟨k, String.intercalate "-" (g.map FilledRow.pgid),
    firstDedup (g.map FilledRow.geom)⟩

/-- The folded group tuples `[_row(p, g) for p, g in igdf.groupby(ptid)]`. -/
def foldedRows {G : Type} [DecidableEq G] (rows : List (FilledRow G)) :
    List (OutRow G) :=
  (groupKeys rows).map fun k => rowFold k (groupRows rows k)

/-- The folded tuples of `nd_intersects` before the shell assignment. -/
def ndFolded {G : Type} [DecidableEq G] (pred : G → G → Bool)
    (pnts : List (PntRec G)) (pgons : List (PgonRec G)) : List (OutRow G) :=
  foldedRows (sjoinRows pred pnts pgons "NaN")

/-- The error raised by the shell assignment
`ndgdf.loc[:, keep_columns] = [...]` when the folded tuples do not fit the
shell's shape (pandas raises a `ValueError`). -/
def shellShapeError : String :=
  "shell assignment: folded tuples do not match the shell shape"

/-- `nd_intersects` (lines 13-53): appends the geometry column name to
`keep_columns` in place when absent, runs `do_sjoin` (which re-checks and
leaves the list alone), folds the groups, and assigns the folded tuples
positionally into a shell dataframe with `igdf`'s columns and `pnts`'s
index — succeeding exactly when the number of tuples equals the number of
points and every tuple's width equals the column count.  Returns the
result together with the final `keep_columns`. -/
def nd_intersects {G : Type} [DecidableEq G] (pred : G → G → Bool)
    (pnts : List (PntRec G)) (pgons : List (PgonRec G)) (kc : List String)
    (geomName : String) : Except String (List (OutRow G)) × List String :=
  let kc2 := updateKeep geomName kc
  let sj := do_sjoin pred pnts pgons kc2 geomName "NaN"
  let folded := foldedRows sj.1
  (if folded.length = pnts.length ∧ ∀ r ∈ folded, 2 + r.geoms.length = sj.2.length
    then Except.ok folded else Except.error shellShapeError, sj.2)

/-- First-occurrence deduplication written from the spec's words: fold over
the list, appending each value the first time it is met ("deduplicated ...
preserving first-occurrence order"). -/
def specDistinctFirstOcc {α : Type} [DecidableEq α] (l : List α) : List α :=
  l.foldl (fun acc a => if a ∈ acc then acc else acc ++ [a]) []

/-! ### Helper lemmas: sorting -/

theorem insertSorted_perm {α : Type} (le : α → α → Bool) (a : α) (l : List α) :
    List.Perm (insertSorted le a l) (a :: l) := by
  induction l with
  | nil => exact List.Perm.refl _
  | cons b l ih =>
    cases hle : le a b with
    | true => simp [insertSorted, hle]
    | false =>
      simp only [insertSorted, hle, Bool.false_eq_true, if_false]
      exact (ih.cons b).trans (List.Perm.swap a b l)

theorem sortBy_perm {α : Type} (le : α → α → Bool) (l : List α) :
    List.Perm (sortBy le l) l := by
  induction l with
  | nil => exact List.Perm.refl _
  | cons a l ih => exact (insertSorted_perm le a (sortBy le l)).trans (ih.cons a)

theorem sortBy_length {α : Type} (le : α → α → Bool) (l : List α) :
    (sortBy le l).length = l.length :=
  (sortBy_perm le l).length_eq

theorem sortBy_mem {α : Type} (le : α → α → Bool) (l : List α) (x : α) :
    x ∈ sortBy le l ↔ x ∈ l :=
  (sortBy_perm le l).mem_iff

/-! ### Helper lemmas: first-occurrence deduplication -/

theorem fdGo_mem {α : Type} [DecidableEq α] (l : List α) :
    ∀ (seen : List α) (x : α), x ∈ fdGo seen l ↔ x ∈ l ∧ x ∉ seen := by
  induction l with
  | nil => intro seen x; simp [fdGo]
  | cons a l ih =>
    intro seen x
    by_cases h : a ∈ seen
    · rw [fdGo, if_pos h, ih]
      constructor
      · rintro ⟨hx, hns⟩; exact ⟨List.mem_cons_of_mem a hx, hns⟩
      · rintro ⟨hx, hns⟩
        rcases List.mem_cons.mp hx with rfl | hx
        · exact absurd h hns
        · exact ⟨hx, hns⟩
    · rw [fdGo, if_neg h]
      simp only [List.mem_cons, ih]
      by_cases hxa : x = a
      · subst hxa; tauto
      · tauto

theorem fdGo_nodup {α : Type} [DecidableEq α] (l : List α) :
    ∀ seen : List α, (fdGo seen l).Nodup := by
  induction l with
  | nil => intro seen; simp [fdGo]
  | cons a l ih =>
    intro seen
    by_cases h : a ∈ seen
    · rw [fdGo, if_pos h]; exact ih seen
    · rw [fdGo, if_neg h]
      refine List.nodup_cons.mpr ⟨fun hmem => ?_, ih _⟩
      exact ((fdGo_mem l _ a).mp hmem).2 (List.mem_cons_self a seen)

theorem fdGo_sublist {α : Type} [DecidableEq α] (l : List α) :
    ∀ seen : List α, List.Sublist (fdGo seen l) l := by
  induction l with
  | nil => intro seen; simp [fdGo]
  | cons a l ih =>
    intro seen
    by_cases h : a ∈ seen
    · rw [fdGo, if_pos h]; exact (ih seen).cons a
    · rw [fdGo, if_neg h]; exact (ih (a :: seen)).cons₂ a

theorem fdGo_eq_self {α : Type} [DecidableEq α] (l : List α) :
    ∀ seen : List α, l.Nodup → (∀ x ∈ l, x ∉ seen) → fdGo seen l = l := by
  induction l with
  | nil => intro seen _ _; rfl
  | cons a l ih =>
    intro seen hnd hdisj
    rw [fdGo, if_neg (hdisj a (List.mem_cons_self a l))]
    rw [ih (a :: seen) (List.nodup_cons.mp hnd).2]
    intro x hx
    intro hs
    rcases List.mem_cons.mp hs with rfl | hs
    · exact (List.nodup_cons.mp hnd).1 hx
    · exact hdisj x (List.mem_cons_of_mem a hx) hs

theorem firstDedup_eq_self {α : Type} [DecidableEq α] (l : List α) (h : l.Nodup) :
    firstDedup l = l :=
  fdGo_eq_self l [] h (by intro x _ hx; cases hx)

theorem firstDedup_nodup {α : Type} [DecidableEq α] (l : List α) :
    (firstDedup l).Nodup :=
  fdGo_nodup l []

theorem firstDedup_sublist {α : Type} [DecidableEq α] (l : List α) :
    List.Sublist (firstDedup l) l :=
  fdGo_sublist l []

theorem firstDedup_mem {α : Type} [DecidableEq α] (l : List α) (x : α) :
    x ∈ firstDedup l ↔ x ∈ l := by
  rw [firstDedup, fdGo_mem]
  simp

theorem firstDedup_length_lt {α : Type} [DecidableEq α] (l : List α)
    (h : ¬l.Nodup) : (firstDedup l).length < l.length := by
  rcases Nat.lt_or_ge (firstDedup l).length l.length with hlt | hge
  · exact hlt
  · exfalso
    have hle := (firstDedup_sublist l).length_le
    have heq : (firstDedup l).length = l.length := Nat.le_antisymm hle hge
    have := (firstDedup_sublist l).eq_of_length heq
    exact h (this ▸ firstDedup_nodup l)

theorem fdGo_replicate_mem {α : Type} [DecidableEq α] (a : α) (n : Nat)
    (rest : List α) (seen : List α) (h : a ∈ seen) :
    fdGo seen (List.replicate n a ++ rest) = fdGo seen rest := by
  induction n with
  | zero => rfl
  | succ n ih => rw [List.replicate_succ, List.cons_append, fdGo, if_pos h, ih]

theorem fdGo_replicate_not_mem {α : Type} [DecidableEq α] (a : α) (n : Nat)
    (rest : List α) (seen : List α) (h : a ∉ seen) :
    fdGo seen (List.replicate (n + 1) a ++ rest) = a :: fdGo (a :: seen) rest := by
  rw [List.replicate_succ, List.cons_append, fdGo, if_neg h,
    fdGo_replicate_mem a n rest (a :: seen) (List.mem_cons_self a seen)]

theorem firstDedup_replicate {α : Type} [DecidableEq α] (a : α) (n : Nat) :
    firstDedup (List.replicate (n + 1) a) = [a] := by
  have := fdGo_replicate_not_mem a n [] [] (by intro h; cases h)
  rw [List.append_nil] at this
  rw [firstDedup, this]
  rfl

theorem foldl_dedup_eq_fdGo {α : Type} [DecidableEq α] (l : List α) :
    ∀ (acc seen : List α), (∀ a, a ∈ seen ↔ a ∈ acc) →
      l.foldl (fun acc a => if a ∈ acc then acc else acc ++ [a]) acc
        = acc ++ fdGo seen l := by
  induction l with
  | nil => intro acc seen _; simp [fdGo]
  | cons a l ih =>
    intro acc seen hiff
    by_cases h : a ∈ seen
    · rw [List.foldl_cons, if_pos ((hiff a).mp h), fdGo, if_pos h]
      exact ih acc seen hiff
    · rw [List.foldl_cons, if_neg (fun hacc => h ((hiff a).mpr hacc)), fdGo, if_neg h]
      rw [ih (acc ++ [a]) (a :: seen) ?_]
      · rw [List.append_assoc, List.singleton_append]
      · intro x
        rw [List.mem_cons, List.mem_append, List.mem_singleton, hiff x, or_comm]

theorem specDistinctFirstOcc_eq_firstDedup {α : Type} [DecidableEq α]
    (l : List α) : specDistinctFirstOcc l = firstDedup l := by
  rw [specDistinctFirstOcc, firstDedup,
    foldl_dedup_eq_fdGo l [] [] (fun a => Iff.rfl), List.nil_append]

/-! ### Helper lemmas: keep_columns update -/

theorem updateKeep_mem (geomName : String) (kc : List String) :
    geomName ∈ updateKeep geomName kc := by
  rw [updateKeep]
  by_cases h : geomName ∈ kc
  · rw [if_pos h]; exact h
  · rw [if_neg h]; exact List.mem_append_right kc (List.mem_singleton.mpr rfl)

theorem updateKeep_idem (geomName : String) (kc : List String) :
    updateKeep geomName (updateKeep geomName kc) = updateKeep geomName kc := by
  rw [updateKeep, if_pos (updateKeep_mem geomName kc)]

theorem updateKeep_of_mem (geomName : String) (kc : List String)
    (h : geomName ∈ kc) : updateKeep geomName kc = kc := by
  rw [updateKeep, if_pos h]

theorem updateKeep_of_not_mem (geomName : String) (kc : List String)
    (h : geomName ∉ kc) : updateKeep geomName kc = kc ++ [geomName] := by
  rw [updateKeep, if_neg h]

/-! ### Helper lemmas: the per-point block structure of the left join -/

/-- The filled pair rows one left row contributes to `do_sjoin`'s output. -/
def filledBlock {G : Type} (pred : G → G → Bool) (pgons : List (PgonRec G))
    (fill : String) (p : PntRec G) : List (FilledRow G) :=
  (rawRows pred pgons p).map (fillRow fill)

theorem sjoinRows_eq_flatMap {G : Type} (pred : G → G → Bool)
    (pnts : List (PntRec G)) (pgons : List (PgonRec G)) (fill : String) :
    sjoinRows pred pnts pgons fill
      = pnts.flatMap (filledBlock pred pgons fill) := by
  rw [sjoinRows, sjoinRaw, List.map_flatMap]
  rfl

theorem filledBlock_of_no_match {G : Type} (pred : G → G → Bool)
    (pgons : List (PgonRec G)) (fill : String) (p : PntRec G)
    (h : pgons.filter (fun q => pred p.geom q.geom) = []) :
    filledBlock pred pgons fill p = [⟨p.ptid, fill, p.geom⟩] := by
  rw [filledBlock, rawRows]
  simp only [h, List.isEmpty_nil, if_pos]
  rfl

theorem filledBlock_of_match {G : Type} (pred : G → G → Bool)
    (pgons : List (PgonRec G)) (fill : String) (p : PntRec G)
    (h : pgons.filter (fun q => pred p.geom q.geom) ≠ []) :
    filledBlock pred pgons fill p
      = (pgons.filter fun q => pred p.geom q.geom).map
          fun q => ⟨p.ptid, q.pgid, p.geom⟩ := by
  have hE : (List.filter (fun q => pred p.geom q.geom) pgons).isEmpty = false := by
    simpa [List.isEmpty_iff] using h
  rw [filledBlock, rawRows]
  simp only [hE, Bool.false_eq_true, if_false, List.map_map]
  rfl

theorem filledBlock_fields {G : Type} (pred : G → G → Bool)
    (pgons : List (PgonRec G)) (fill : String) (p : PntRec G) :
    ∀ r ∈ filledBlock pred pgons fill p, r.ptid = p.ptid ∧ r.geom = p.geom := by
  intro r hr
  by_cases h : pgons.filter (fun q => pred p.geom q.geom) = []
  · rw [filledBlock_of_no_match pred pgons fill p h] at hr
    rcases List.mem_singleton.mp hr with rfl
    exact ⟨rfl, rfl⟩
  · rw [filledBlock_of_match pred pgons fill p h] at hr
    rcases List.mem_map.mp hr with ⟨q, _, rfl⟩
    exact ⟨rfl, rfl⟩

theorem filledBlock_ne_nil {G : Type} (pred : G → G → Bool)
    (pgons : List (PgonRec G)) (fill : String) (p : PntRec G) :
    filledBlock pred pgons fill p ≠ [] := by
  by_cases h : pgons.filter (fun q => pred p.geom q.geom) = []
  · rw [filledBlock_of_no_match pred pgons fill p h]
    exact List.cons_ne_nil _ _
  · rw [filledBlock_of_match pred pgons fill p h]
    exact fun hnil => h (List.map_eq_nil_iff.mp hnil)

theorem filledBlock_length_pos {G : Type} (pred : G → G → Bool)
    (pgons : List (PgonRec G)) (fill : String) (p : PntRec G) :
    0 < (filledBlock pred pgons fill p).length :=
  List.length_pos.mpr (filledBlock_ne_nil pred pgons fill p)

theorem filledBlock_ptids {G : Type} (pred : G → G → Bool)
    (pgons : List (PgonRec G)) (fill : String) (p : PntRec G) :
    (filledBlock pred pgons fill p).map FilledRow.ptid
      = List.replicate (filledBlock pred pgons fill p).length p.ptid := by
  rw [List.eq_replicate_iff]
  refine ⟨List.length_map _ _, ?_⟩
  intro b hb
  rcases List.mem_map.mp hb with ⟨r, hr, rfl⟩
  exact (filledBlock_fields pred pgons fill p r hr).1

theorem filledBlock_geoms {G : Type} (pred : G → G → Bool)
    (pgons : List (PgonRec G)) (fill : String) (p : PntRec G) :
    (filledBlock pred pgons fill p).map FilledRow.geom
      = List.replicate (filledBlock pred pgons fill p).length p.geom := by
  rw [List.eq_replicate_iff]
  refine ⟨List.length_map _ _, ?_⟩
  intro b hb
  rcases List.mem_map.mp hb with ⟨r, hr, rfl⟩
  exact (filledBlock_fields pred pgons fill p r hr).2

/-! ### Helper lemmas: group keys and group contents -/

theorem fdGo_flatMap_blocks {α β : Type} [DecidableEq α] (key : β → α)
    (fb : β → List α) (hfb : ∀ b, ∃ n, fb b = List.replicate (n + 1) (key b)) :
    ∀ (l : List β) (seen : List α),
      fdGo seen (l.flatMap fb) = fdGo seen (l.map key) := by
  intro l
  induction l with
  | nil => intro seen; rfl
  | cons b l ih =>
    intro seen
    obtain ⟨n, hn⟩ := hfb b
    rw [List.flatMap_cons, List.map_cons, hn]
    by_cases h : key b ∈ seen
    · rw [fdGo_replicate_mem _ _ _ _ h]
      conv_rhs => rw [fdGo, if_pos h]
      exact ih seen
    · rw [fdGo_replicate_not_mem _ _ _ _ h]
      conv_rhs => rw [fdGo, if_neg h]
      rw [ih (key b :: seen)]

theorem sjoin_firstDedup_ptids {G : Type} (pred : G → G → Bool)
    (pnts : List (PntRec G)) (pgons : List (PgonRec G)) (fill : String) :
    firstDedup ((sjoinRows pred pnts pgons fill).map FilledRow.ptid)
      = firstDedup (pnts.map PntRec.ptid) := by
  rw [sjoinRows_eq_flatMap, List.map_flatMap, firstDedup, firstDedup]
  refine fdGo_flatMap_blocks PntRec.ptid _ ?_ pnts []
  intro p
  refine ⟨(filledBlock pred pgons fill p).length - 1, ?_⟩
  rw [filledBlock_ptids]
  congr 1
  have := filledBlock_length_pos pred pgons fill p
  omega

theorem groupKeys_sjoin {G : Type} (pred : G → G → Bool)
    (pnts : List (PntRec G)) (pgons : List (PgonRec G)) (fill : String) :
    groupKeys (sjoinRows pred pnts pgons fill)
      = sortBy strLe (firstDedup (pnts.map PntRec.ptid)) := by
  rw [groupKeys, sjoin_firstDedup_ptids]

theorem flatMap_filter_key {G : Type} (fb : PntRec G → List (FilledRow G))
    (hfb : ∀ p r, r ∈ fb p → r.ptid = p.ptid) :
    ∀ (pnts : List (PntRec G)) (p : PntRec G),
      (pnts.map PntRec.ptid).Nodup → p ∈ pnts →
        (pnts.flatMap fb).filter (fun r => r.ptid == p.ptid) = fb p := by
  intro pnts
  induction pnts with
  | nil => intro p _ hp; cases hp
  | cons q rest ih =>
    intro p hnd hp
    rw [List.map_cons] at hnd
    have hnd' := List.nodup_cons.mp hnd
    rw [List.flatMap_cons, List.filter_append]
    by_cases hq : q.ptid = p.ptid
    · have hpq : p = q := by
        rcases List.mem_cons.mp hp with rfl | hrest
        · rfl
        · exfalso
          exact hnd'.1 (hq ▸ List.mem_map_of_mem PntRec.ptid hrest)
      have hfq : (fb q).filter (fun r => r.ptid == p.ptid) = fb q := by
        rw [List.filter_eq_self]
        intro r hr
        exact beq_iff_eq.mpr ((hfb q r hr).trans hq)
      have hrest0 : (rest.flatMap fb).filter (fun r => r.ptid == p.ptid) = [] := by
        rw [List.filter_eq_nil_iff]
        intro r hr
        obtain ⟨x, hx, hrx⟩ := List.mem_flatMap.mp hr
        intro hbeq
        have : x.ptid = p.ptid := (hfb x r hrx) ▸ beq_iff_eq.mp hbeq
        exact hnd'.1 (hq ▸ this ▸ List.mem_map_of_mem PntRec.ptid hx)
      rw [hfq, hrest0, List.append_nil, hpq]
    · have hfq : (fb q).filter (fun r => r.ptid == p.ptid) = [] := by
        rw [List.filter_eq_nil_iff]
        intro r hr hbeq
        exact hq ((hfb q r hr) ▸ beq_iff_eq.mp hbeq)
      have hprest : p ∈ rest := by
        rcases List.mem_cons.mp hp with rfl | hrest
        · exact absurd rfl hq
        · exact hrest
      rw [hfq, List.nil_append]
      exact ih p hnd'.2 hprest

theorem groupRows_sjoin_of_nodup {G : Type} (pred : G → G → Bool)
    (pnts : List (PntRec G)) (pgons : List (PgonRec G)) (fill : String)
    (p : PntRec G) (h1 : (pnts.map PntRec.ptid).Nodup) (hp : p ∈ pnts) :
    groupRows (sjoinRows pred pnts pgons fill) p.ptid
      = filledBlock pred pgons fill p := by
  rw [sjoinRows_eq_flatMap, groupRows]
  exact flatMap_filter_key _
    (fun q r hr => (filledBlock_fields pred pgons fill q r hr).1) pnts p h1 hp

theorem foldedRows_map_ptid {G : Type} [DecidableEq G]
    (rows : List (FilledRow G)) :
    (foldedRows rows).map OutRow.ptid = groupKeys rows := by
  rw [foldedRows, List.map_map]
  exact List.map_id _

theorem mem_foldedRows {G : Type} [DecidableEq G] (rows : List (FilledRow G))
    (r : OutRow G) (hr : r ∈ foldedRows rows) :
    r.ptid ∈ groupKeys rows ∧ r = rowFold r.ptid (groupRows rows r.ptid) := by
  obtain ⟨k, hk, rfl⟩ := List.mem_map.mp hr
  exact ⟨hk, rfl⟩

theorem rowFold_block_geoms {G : Type} [DecidableEq G] (pred : G → G → Bool)
    (pgons : List (PgonRec G)) (fill : String) (p : PntRec G) :
    (rowFold p.ptid (filledBlock pred pgons fill p)).geoms = [p.geom] := by
  show firstDedup ((filledBlock pred pgons fill p).map FilledRow.geom) = [p.geom]
  rw [filledBlock_geoms]
  obtain ⟨n, hn⟩ : ∃ n, (filledBlock pred pgons fill p).length = n + 1 := by
    have := filledBlock_length_pos pred pgons fill p
    exact ⟨(filledBlock pred pgons fill p).length - 1, by omega⟩
  rw [hn, firstDedup_replicate]

/-! ### Helper lemmas: the shell assignment in `nd_intersects` -/

/-- The shell assignment's success condition: as many folded tuples as
points, and every tuple as wide as the shell's column list. -/
def shellFits {G : Type} [DecidableEq G] (pred : G → G → Bool)
    (pnts : List (PntRec G)) (pgons : List (PgonRec G)) (kc : List String)
    (geomName : String) : Prop :=
  (ndFolded pred pnts pgons).length = pnts.length ∧
    ∀ r ∈ ndFolded pred pnts pgons,
      2 + r.geoms.length = (updateKeep geomName kc).length

theorem nd_intersects_kc {G : Type} [DecidableEq G] (pred : G → G → Bool)
    (pnts : List (PntRec G)) (pgons : List (PgonRec G)) (kc : List String)
    (geomName : String) :
    (nd_intersects pred pnts pgons kc geomName).2 = updateKeep geomName kc := by
  show updateKeep geomName (updateKeep geomName kc) = updateKeep geomName kc
  exact updateKeep_idem geomName kc

theorem nd_intersects_ok_of_fits {G : Type} [DecidableEq G] (pred : G → G → Bool)
    (pnts : List (PntRec G)) (pgons : List (PgonRec G)) (kc : List String)
    (geomName : String) (h : shellFits pred pnts pgons kc geomName) :
    (nd_intersects pred pnts pgons kc geomName).1
      = Except.ok (ndFolded pred pnts pgons) := by
  obtain ⟨hlen, hwid⟩ := h
  rw [ndFolded] at hlen hwid
  rw [← updateKeep_idem geomName kc] at hwid
  simp only [nd_intersects, do_sjoin]
  rw [if_pos ⟨hlen, hwid⟩, ndFolded]

theorem nd_intersects_error_of_not_fits {G : Type} [DecidableEq G]
    (pred : G → G → Bool) (pnts : List (PntRec G)) (pgons : List (PgonRec G))
    (kc : List String) (geomName : String)
    (h : ¬shellFits pred pnts pgons kc geomName) :
    (nd_intersects pred pnts pgons kc geomName).1
      = Except.error shellShapeError := by
  rw [shellFits, ndFolded, ← updateKeep_idem geomName kc] at h
  simp only [nd_intersects, do_sjoin]
  rw [if_neg h]

theorem nd_intersects_ok_inv {G : Type} [DecidableEq G] (pred : G → G → Bool)
    (pnts : List (PntRec G)) (pgons : List (PgonRec G)) (kc : List String)
    (geomName : String) (out : List (OutRow G))
    (h : (nd_intersects pred pnts pgons kc geomName).1 = Except.ok out) :
    out = ndFolded pred pnts pgons := by
  by_cases hf : shellFits pred pnts pgons kc geomName
  · rw [nd_intersects_ok_of_fits pred pnts pgons kc geomName hf] at h
    exact (Except.ok.inj h).symm
  · rw [nd_intersects_error_of_not_fits pred pnts pgons kc geomName hf] at h
    cases h

/-- Under unique point ids and the standard three-column configuration the
shell assignment always fits: one tuple per point, each of width three. -/
theorem shellFits_of_nodup {G : Type} [DecidableEq G] (pred : G → G → Bool)
    (pnts : List (PntRec G)) (pgons : List (PgonRec G)) (kc : List String)
    (geomName : String) (h1 : (pnts.map PntRec.ptid).Nodup)
    (h2 : (updateKeep geomName kc).length = 3) :
    shellFits pred pnts pgons kc geomName := by
  constructor
  · have hmap : (ndFolded pred pnts pgons).map OutRow.ptid
        = sortBy strLe (pnts.map PntRec.ptid) := by
      rw [ndFolded, foldedRows_map_ptid, groupKeys_sjoin, firstDedup_eq_self _ h1]
    have := congrArg List.length hmap
    rw [List.length_map, sortBy_length, List.length_map] at this
    exact this
  · intro r hr
    rw [ndFolded] at hr
    obtain ⟨hk, hreq⟩ := mem_foldedRows _ r hr
    rw [groupKeys_sjoin, sortBy_mem, firstDedup_mem] at hk
    obtain ⟨p, hp, hpk⟩ := List.mem_map.mp hk
    rw [← hpk, groupRows_sjoin_of_nodup pred pnts pgons "NaN" p h1 hp] at hreq
    have hg : r.geoms = [p.geom] := by
      rw [hreq, rowFold_block_geoms]
    rw [hg, h2]
    rfl

theorem ndFolded_ptids_of_nodup {G : Type} [DecidableEq G] (pred : G → G → Bool)
    (pnts : List (PntRec G)) (pgons : List (PgonRec G))
    (h1 : (pnts.map PntRec.ptid).Nodup) :
    (ndFolded pred pnts pgons).map OutRow.ptid
      = sortBy strLe (pnts.map PntRec.ptid) := by
  rw [ndFolded, foldedRows_map_ptid, groupKeys_sjoin, firstDedup_eq_self _ h1]

theorem intercalate_singleton (a : String) :
    String.intercalate "-" [a] = a := by
  simp [String.intercalate, String.intercalate.go]

theorem OutRow_eq {G : Type} (r s : OutRow G) (h1 : r.ptid = s.ptid)
    (h2 : r.pgidStr = s.pgidStr) (h3 : r.geoms = s.geoms) : r = s := by
  cases r; cases s
  cases h1; cases h2; cases h3
  rfl

/-- A folded output row's fields, in terms of its group's rows. -/
theorem mem_foldedRows_parts {G : Type} [DecidableEq G]
    (rows : List (FilledRow G)) (r : OutRow G) (hr : r ∈ foldedRows rows) :
    r.pgidStr = String.intercalate "-"
        ((groupRows rows r.ptid).map FilledRow.pgid) ∧
    r.geoms = firstDedup ((groupRows rows r.ptid).map FilledRow.geom) := by
  obtain ⟨k, hk, rfl⟩ := List.mem_map.mp hr
  exact ⟨rfl, rfl⟩

/-! ### The claims -/

/-- C1: for every pair of input collections with unique point identities
(and the standard three-column `keep_columns` configuration), `nd_intersects`
under the default left join succeeds and returns exactly one row per
distinct `point_id` value of the points input: the output's point-id column
is a permutation of the input's, so no point identity is dropped and none
appears more than once. -/
theorem nd_intersects_one_row_per_point {G : Type} [DecidableEq G]
    (pred : G → G → Bool) (pnts : List (PntRec G)) (pgons : List (PgonRec G))
    (kc : List String) (geomName : String)
    (h1 : (pnts.map PntRec.ptid).Nodup)
    (h2 : (updateKeep geomName kc).length = 3) :
    (nd_intersects pred pnts pgons kc geomName).1
        = Except.ok (ndFolded pred pnts pgons) ∧
      List.Perm ((ndFolded pred pnts pgons).map OutRow.ptid)
        (pnts.map PntRec.ptid) := by
  refine ⟨nd_intersects_ok_of_fits pred pnts pgons kc geomName
    (shellFits_of_nodup pred pnts pgons kc geomName h1 h2), ?_⟩
  rw [ndFolded_ptids_of_nodup pred pnts pgons h1]
  exact sortBy_perm strLe (pnts.map PntRec.ptid)

/-- Witness for C1 at a concrete input. -/
theorem nd_intersects_one_row_per_point_witness :
    (nd_intersects (G := Nat) (fun _ _ => true) [⟨"B", 0⟩, ⟨"A", 1⟩] [⟨"z", 5⟩]
        ["point_id", "polygon_id"] "geometry").1
        = Except.ok (ndFolded (G := Nat) (fun _ _ => true)
            [⟨"B", 0⟩, ⟨"A", 1⟩] [⟨"z", 5⟩]) ∧
      List.Perm ((ndFolded (G := Nat) (fun _ _ => true)
            [⟨"B", 0⟩, ⟨"A", 1⟩] [⟨"z", 5⟩]).map OutRow.ptid)
        (([⟨"B", 0⟩, ⟨"A", 1⟩] : List (PntRec Nat)).map PntRec.ptid) :=
  nd_intersects_one_row_per_point (fun _ _ => true) [⟨"B", 0⟩, ⟨"A", 1⟩]
    [⟨"z", 5⟩] ["point_id", "polygon_id"] "geometry" (by decide) (by decide)

/-- C2 counterexample: a point paired twice with polygon id "a" (two polygon
records carrying the same id, both matching) yields the merged string
"a-a": the code's `"-".join(_g[pgid])` does not deduplicate exact repeats,
contrary to the claim. -/
theorem merged_string_repeats_not_deduplicated :
    (nd_intersects (G := Nat) (fun _ _ => true) [⟨"P", 0⟩] [⟨"a", 7⟩, ⟨"a", 8⟩]
        ["point_id", "polygon_id"] "geometry").1
      = Except.ok [⟨"P", "a-a", [0]⟩] ∧ "a-a" ≠ "a" :=
  ⟨rfl, by decide⟩

/-- C2 (amended): the merged polygon-id string is the `"-"`-join of ALL the
`right_id_col` values of the group in pair-row order, with no
deduplication of repeats; a group of size one still yields that single id
with no separator, and a group whose sole member is the sentinel yields
the sentinel itself. -/
theorem merged_string_joins_all_group_ids {G : Type} [DecidableEq G]
    (pred : G → G → Bool) (pnts : List (PntRec G)) (pgons : List (PgonRec G))
    (kc : List String) (geomName : String) (out : List (OutRow G)) (r : OutRow G)
    (hout : (nd_intersects pred pnts pgons kc geomName).1 = Except.ok out)
    (hr : r ∈ out) :
    r.pgidStr = String.intercalate "-"
        ((groupRows (sjoinRows pred pnts pgons "NaN") r.ptid).map FilledRow.pgid) ∧
    (∀ w, groupRows (sjoinRows pred pnts pgons "NaN") r.ptid = [w] →
      r.pgidStr = w.pgid) ∧
    (∀ w, groupRows (sjoinRows pred pnts pgons "NaN") r.ptid = [w] →
      w.pgid = "NaN" → r.pgidStr = "NaN") := by
  have hout' := nd_intersects_ok_inv pred pnts pgons kc geomName out hout
  subst hout'
  rw [ndFolded] at hr
  have hparts := mem_foldedRows_parts _ r hr
  refine ⟨hparts.1, ?_, ?_⟩
  · intro w hw
    rw [hparts.1, hw, List.map_singleton, intercalate_singleton]
  · intro w hw hnan
    rw [hparts.1, hw, List.map_singleton, intercalate_singleton, hnan]

/-- Witness for the amended C2 at a concrete input. -/
theorem merged_string_joins_all_group_ids_witness :
    ((⟨"P", "a-a", [0]⟩ : OutRow Nat)).pgidStr = String.intercalate "-"
        ((groupRows (sjoinRows (G := Nat) (fun _ _ => true) [⟨"P", 0⟩]
          [⟨"a", 7⟩, ⟨"a", 8⟩] "NaN") (⟨"P", "a-a", [0]⟩ : OutRow Nat).ptid).map
            FilledRow.pgid) ∧
    (∀ w, groupRows (sjoinRows (G := Nat) (fun _ _ => true) [⟨"P", 0⟩]
        [⟨"a", 7⟩, ⟨"a", 8⟩] "NaN") (⟨"P", "a-a", [0]⟩ : OutRow Nat).ptid = [w] →
      (⟨"P", "a-a", [0]⟩ : OutRow Nat).pgidStr = w.pgid) ∧
    (∀ w, groupRows (sjoinRows (G := Nat) (fun _ _ => true) [⟨"P", 0⟩]
        [⟨"a", 7⟩, ⟨"a", 8⟩] "NaN") (⟨"P", "a-a", [0]⟩ : OutRow Nat).ptid = [w] →
      w.pgid = "NaN" → (⟨"P", "a-a", [0]⟩ : OutRow Nat).pgidStr = "NaN") :=
  merged_string_joins_all_group_ids (fun _ _ => true) [⟨"P", 0⟩]
    [⟨"a", 7⟩, ⟨"a", 8⟩] ["point_id", "polygon_id"] "geometry"
    [⟨"P", "a-a", [0]⟩] ⟨"P", "a-a", [0]⟩ (by rfl) (by decide)

/-- C3 counterexample: points given in order ["B", "A"] come out in sorted
order ["A", "B"], not in the first-occurrence (left-entity) order the
claim states: pandas `groupby` sorts the group keys. -/
theorem output_order_not_first_occurrence :
    (nd_intersects (G := Nat) (fun _ _ => false) [⟨"B", 0⟩, ⟨"A", 1⟩] []
        ["point_id", "polygon_id"] "geometry").1
      = Except.ok [⟨"A", "NaN", [1]⟩, ⟨"B", "NaN", [0]⟩] ∧
    ([⟨"A", "NaN", [1]⟩, ⟨"B", "NaN", [0]⟩] : List (OutRow Nat)).map OutRow.ptid
      ≠ ([⟨"B", 0⟩, ⟨"A", 1⟩] : List (PntRec Nat)).map PntRec.ptid :=
  ⟨rfl, by decide⟩

/-- C3 (amended): under unique point ids (and the standard three-column
configuration) the output rows appear in ascending sorted order of the
point ids — the group iteration order of pandas `groupby(sort=True)` — not
in first-occurrence order. -/
theorem output_order_sorted {G : Type} [DecidableEq G]
    (pred : G → G → Bool) (pnts : List (PntRec G)) (pgons : List (PgonRec G))
    (kc : List String) (geomName : String)
    (h1 : (pnts.map PntRec.ptid).Nodup)
    (h2 : (updateKeep geomName kc).length = 3) :
    (nd_intersects pred pnts pgons kc geomName).1
        = Except.ok (ndFolded pred pnts pgons) ∧
      (ndFolded pred pnts pgons).map OutRow.ptid
        = sortBy strLe (pnts.map PntRec.ptid) :=
  ⟨nd_intersects_ok_of_fits pred pnts pgons kc geomName
    (shellFits_of_nodup pred pnts pgons kc geomName h1 h2),
   ndFolded_ptids_of_nodup pred pnts pgons h1⟩

/-- Witness for the amended C3 at a concrete input with unsorted ids. -/
theorem output_order_sorted_witness :
    (nd_intersects (G := Nat) (fun _ _ => false) [⟨"B", 0⟩, ⟨"A", 1⟩] []
        ["point_id", "polygon_id"] "geometry").1
        = Except.ok (ndFolded (G := Nat) (fun _ _ => false) [⟨"B", 0⟩, ⟨"A", 1⟩] []) ∧
      (ndFolded (G := Nat) (fun _ _ => false) [⟨"B", 0⟩, ⟨"A", 1⟩] []).map OutRow.ptid
        = sortBy strLe (([⟨"B", 0⟩, ⟨"A", 1⟩] : List (PntRec Nat)).map PntRec.ptid) :=
  output_order_sorted (fun _ _ => false) [⟨"B", 0⟩, ⟨"A", 1⟩] []
    ["point_id", "polygon_id"] "geometry" (by decide) (by decide)

/-- C4: within a group the polygon ids are concatenated in pair-row
(encounter) order, never sorted: a single point matching every polygon
yields the `"-"`-join of the polygon ids in the polygons' own order. -/
theorem group_ids_in_encounter_order {G : Type} [DecidableEq G]
    (pred : G → G → Bool) (p : PntRec G) (pgons : List (PgonRec G))
    (kc : List String) (geomName : String)
    (h2 : (updateKeep geomName kc).length = 3)
    (hall : ∀ q ∈ pgons, pred p.geom q.geom = true)
    (hne : pgons ≠ []) :
    (nd_intersects pred [p] pgons kc geomName).1
      = Except.ok [⟨p.ptid, String.intercalate "-" (pgons.map PgonRec.pgid),
          [p.geom]⟩] := by
  have h1 : (([p] : List (PntRec G)).map PntRec.ptid).Nodup := by
    simp
  have hfil : pgons.filter (fun q => pred p.geom q.geom) = pgons :=
    List.filter_eq_self.mpr hall
  have key : rowFold p.ptid (filledBlock pred pgons "NaN" p)
      = ⟨p.ptid, String.intercalate "-" (pgons.map PgonRec.pgid), [p.geom]⟩ := by
    have hg := rowFold_block_geoms pred pgons "NaN" p
    have hs : (rowFold p.ptid (filledBlock pred pgons "NaN" p)).pgidStr
        = String.intercalate "-" (pgons.map PgonRec.pgid) := by
      show String.intercalate "-"
        ((filledBlock pred pgons "NaN" p).map FilledRow.pgid) = _
      rw [filledBlock_of_match pred pgons "NaN" p (by rw [hfil]; exact hne),
        hfil, List.map_map]
      rfl
    exact OutRow_eq _ _ rfl hs hg
  rw [nd_intersects_ok_of_fits pred [p] pgons kc geomName
    (shellFits_of_nodup pred [p] pgons kc geomName h1 h2)]
  rw [ndFolded, foldedRows, groupKeys_sjoin, firstDedup_eq_self _ h1]
  show Except.ok [rowFold p.ptid (groupRows (sjoinRows pred [p] pgons "NaN") p.ptid)]
      = Except.ok [(⟨p.ptid, String.intercalate "-" (pgons.map PgonRec.pgid),
          [p.geom]⟩ : OutRow G)]
  rw [groupRows_sjoin_of_nodup pred [p] pgons "NaN" p h1
    (List.mem_singleton.mpr rfl), key]

/-- Witness for C4: polygons encountered in order ["b", "a"] give the
merged string "b-a", not the alphabetically sorted "a-b". -/
theorem group_ids_in_encounter_order_witness :
    ((nd_intersects (G := Nat) (fun _ _ => true) [⟨"A", 0⟩]
        [⟨"b", 7⟩, ⟨"a", 8⟩] ["point_id", "polygon_id"] "geometry").1
      = Except.ok [⟨"A", String.intercalate "-"
          (([⟨"b", 7⟩, ⟨"a", 8⟩] : List (PgonRec Nat)).map PgonRec.pgid),
          [0]⟩]) ∧
    String.intercalate "-"
        (([⟨"b", 7⟩, ⟨"a", 8⟩] : List (PgonRec Nat)).map PgonRec.pgid) = "b-a" ∧
    "b-a" ≠ "a-b" :=
  ⟨group_ids_in_encounter_order (fun _ _ => true) ⟨"A", 0⟩
      [⟨"b", 7⟩, ⟨"a", 8⟩] ["point_id", "polygon_id"] "geometry"
      (by decide) (by decide) (by decide),
   by decide, by decide⟩

/-- C5: each output row's geometry list is the group's geometry sequence
deduplicated by (decidable) geometric value equality, preserving
first-occurrence order: it equals the spec-side first-occurrence fold, is
duplicate-free, is a sublist of the group's geometry sequence (relative
order preserved), and holds exactly the group's geometry values. -/
theorem group_geoms_deduplicated {G : Type} [DecidableEq G]
    (pred : G → G → Bool) (pnts : List (PntRec G)) (pgons : List (PgonRec G))
    (kc : List String) (geomName : String) (out : List (OutRow G)) (r : OutRow G)
    (hout : (nd_intersects pred pnts pgons kc geomName).1 = Except.ok out)
    (hr : r ∈ out) :
    r.geoms = specDistinctFirstOcc
        ((groupRows (sjoinRows pred pnts pgons "NaN") r.ptid).map FilledRow.geom) ∧
    r.geoms.Nodup ∧
    List.Sublist r.geoms
      ((groupRows (sjoinRows pred pnts pgons "NaN") r.ptid).map FilledRow.geom) ∧
    ∀ g : G, g ∈ r.geoms ↔
      g ∈ (groupRows (sjoinRows pred pnts pgons "NaN") r.ptid).map FilledRow.geom := by
  have hout' := nd_intersects_ok_inv pred pnts pgons kc geomName out hout
  subst hout'
  rw [ndFolded] at hr
  have hparts := mem_foldedRows_parts _ r hr
  rw [hparts.2, specDistinctFirstOcc_eq_firstDedup]
  exact ⟨rfl, firstDedup_nodup _, firstDedup_sublist _, fun g => firstDedup_mem _ g⟩

/-- Witness for C5 at a concrete input. -/
theorem group_geoms_deduplicated_witness :
    ((⟨"P", "a-a", [0]⟩ : OutRow Nat)).geoms = specDistinctFirstOcc
        ((groupRows (sjoinRows (G := Nat) (fun _ _ => true) [⟨"P", 0⟩]
          [⟨"a", 7⟩, ⟨"a", 8⟩] "NaN") (⟨"P", "a-a", [0]⟩ : OutRow Nat).ptid).map
            FilledRow.geom) ∧
    ((⟨"P", "a-a", [0]⟩ : OutRow Nat)).geoms.Nodup ∧
    List.Sublist ((⟨"P", "a-a", [0]⟩ : OutRow Nat)).geoms
      ((groupRows (sjoinRows (G := Nat) (fun _ _ => true) [⟨"P", 0⟩]
        [⟨"a", 7⟩, ⟨"a", 8⟩] "NaN") (⟨"P", "a-a", [0]⟩ : OutRow Nat).ptid).map
          FilledRow.geom) ∧
    ∀ g : Nat, g ∈ ((⟨"P", "a-a", [0]⟩ : OutRow Nat)).geoms ↔
      g ∈ (groupRows (sjoinRows (G := Nat) (fun _ _ => true) [⟨"P", 0⟩]
        [⟨"a", 7⟩, ⟨"a", 8⟩] "NaN") (⟨"P", "a-a", [0]⟩ : OutRow Nat).ptid).map
          FilledRow.geom :=
  group_geoms_deduplicated (fun _ _ => true) [⟨"P", 0⟩] [⟨"a", 7⟩, ⟨"a", 8⟩]
    ["point_id", "polygon_id"] "geometry" [⟨"P", "a-a", [0]⟩]
    ⟨"P", "a-a", [0]⟩ (by rfl) (by decide)

/-- C6: a left row with no match has its null right-id cell overwritten
with the sentinel: the pair-row table contains the sentinel row for such a
point, and in the aggregated output that point's row carries the sentinel
string "NaN" as its polygon id and only the point's own geometry. -/
theorem sentinel_for_unmatched_point {G : Type} [DecidableEq G]
    (pred : G → G → Bool) (pnts : List (PntRec G)) (pgons : List (PgonRec G))
    (kc : List String) (geomName : String) (p : PntRec G)
    (h1 : (pnts.map PntRec.ptid).Nodup)
    (hp : p ∈ pnts)
    (hnom : pgons.filter (fun q => pred p.geom q.geom) = []) :
    (⟨p.ptid, "NaN", p.geom⟩ : FilledRow G)
        ∈ (do_sjoin pred pnts pgons kc geomName "NaN").1 ∧
    ∀ out, (nd_intersects pred pnts pgons kc geomName).1 = Except.ok out →
      ∀ r ∈ out, r.ptid = p.ptid → r.pgidStr = "NaN" ∧ r.geoms = [p.geom] := by
  constructor
  · show (⟨p.ptid, "NaN", p.geom⟩ : FilledRow G)
      ∈ sjoinRows pred pnts pgons "NaN"
    rw [sjoinRows_eq_flatMap]
    refine List.mem_flatMap.mpr ⟨p, hp, ?_⟩
    rw [filledBlock_of_no_match pred pgons "NaN" p hnom]
    exact List.mem_singleton.mpr rfl
  · intro out hout r hr hrp
    have hout' := nd_intersects_ok_inv pred pnts pgons kc geomName out hout
    subst hout'
    rw [ndFolded] at hr
    have hparts := mem_foldedRows_parts _ r hr
    have hgrp : groupRows (sjoinRows pred pnts pgons "NaN") r.ptid
        = [⟨p.ptid, "NaN", p.geom⟩] := by
      rw [hrp, groupRows_sjoin_of_nodup pred pnts pgons "NaN" p h1 hp,
        filledBlock_of_no_match pred pgons "NaN" p hnom]
    constructor
    · rw [hparts.1, hgrp, List.map_singleton, intercalate_singleton]
    · rw [hparts.2, hgrp, List.map_singleton]
      rfl

/-- Witness for C6 at a concrete input. -/
theorem sentinel_for_unmatched_point_witness :
    (⟨"A", "NaN", (0 : Nat)⟩ : FilledRow Nat)
        ∈ (do_sjoin (G := Nat) (fun _ _ => false) [⟨"A", 0⟩] []
            ["point_id", "polygon_id"] "geometry" "NaN").1 ∧
    ∀ out, (nd_intersects (G := Nat) (fun _ _ => false) [⟨"A", 0⟩] []
        ["point_id", "polygon_id"] "geometry").1 = Except.ok out →
      ∀ r ∈ out, r.ptid = "A" → r.pgidStr = "NaN" ∧ r.geoms = [(0 : Nat)] :=
  sentinel_for_unmatched_point (fun _ _ => false) [⟨"A", 0⟩] []
    ["point_id", "polygon_id"] "geometry" ⟨"A", 0⟩ (by decide) (by decide)
    (by decide)

/-- C7 counterexample: a call whose keep_columns lacks the geometry column
name returns with the caller's keep_columns extended — the in-place
`keep_columns += [...]` is a visible side effect on the caller's list, so
the claim that the configuration is unchanged fails. -/
theorem keep_columns_mutated :
    (nd_intersects (G := Nat) (fun _ _ => false) [] []
        ["point_id", "polygon_id"] "geometry").2
      = ["point_id", "polygon_id", "geometry"] ∧
    (["point_id", "polygon_id", "geometry"] : List String)
      ≠ ["point_id", "polygon_id"] :=
  ⟨rfl, by decide⟩

/-- C7 (amended): both functions are pure with respect to the input
collections (the model needs no state for them), but each extends the
caller-supplied keep_columns list in place: the final list is
`updateKeep`, which appends the geometry column name when absent and
leaves the list unchanged when present. -/
theorem keep_columns_final_state {G : Type} [DecidableEq G]
    (pred : G → G → Bool) (pnts : List (PntRec G)) (pgons : List (PgonRec G))
    (kc : List String) (geomName : String) (fill : String) :
    (nd_intersects pred pnts pgons kc geomName).2 = updateKeep geomName kc ∧
    (do_sjoin pred pnts pgons kc geomName fill).2 = updateKeep geomName kc ∧
    (geomName ∈ kc → updateKeep geomName kc = kc) ∧
    (geomName ∉ kc → updateKeep geomName kc = kc ++ [geomName]) :=
  ⟨nd_intersects_kc pred pnts pgons kc geomName, rfl,
   fun h => updateKeep_of_mem geomName kc h,
   fun h => updateKeep_of_not_mem geomName kc h⟩

/-- Witness for the amended C7 at a concrete input. -/
theorem keep_columns_final_state_witness :
    (nd_intersects (G := Nat) (fun _ _ => false) [] []
        ["point_id", "polygon_id"] "geometry").2
      = updateKeep "geometry" ["point_id", "polygon_id"] ∧
    (do_sjoin (G := Nat) (fun _ _ => false) [] []
        ["point_id", "polygon_id"] "geometry" "NaN").2
      = updateKeep "geometry" ["point_id", "polygon_id"] ∧
    ("geometry" ∈ ["point_id", "polygon_id"] →
      updateKeep "geometry" ["point_id", "polygon_id"]
        = ["point_id", "polygon_id"]) ∧
    ("geometry" ∉ ["point_id", "polygon_id"] →
      updateKeep "geometry" ["point_id", "polygon_id"]
        = ["point_id", "polygon_id"] ++ ["geometry"]) :=
  keep_columns_final_state (fun _ _ => false) [] []
    ["point_id", "polygon_id"] "geometry" "NaN"

/-- C8: when two folded group tuples disagree on geometry arity (so the
tuples cannot all match the shell's fixed column count), the shell
assignment of `nd_intersects` raises an error instead of producing a
table. -/
theorem arity_mismatch_raises {G : Type} [DecidableEq G]
    (pred : G → G → Bool) (pnts : List (PntRec G)) (pgons : List (PgonRec G))
    (kc : List String) (geomName : String) (r1 r2 : OutRow G)
    (hr1 : r1 ∈ ndFolded pred pnts pgons) (hr2 : r2 ∈ ndFolded pred pnts pgons)
    (hne : r1.geoms.length ≠ r2.geoms.length) :
    (nd_intersects pred pnts pgons kc geomName).1
      = Except.error shellShapeError := by
  apply nd_intersects_error_of_not_fits
  rintro ⟨_, hwid⟩
  have e1 := hwid r1 hr1
  have e2 := hwid r2 hr2
  omega

/-- Witness for C8: two same-id points at different coordinates give one
group with two distinct geometries next to a one-geometry group. -/
theorem arity_mismatch_raises_witness :
    (nd_intersects (G := Nat) (fun _ _ => false)
        [⟨"A", 0⟩, ⟨"A", 1⟩, ⟨"B", 2⟩] []
        ["point_id", "polygon_id"] "geometry").1
      = Except.error shellShapeError :=
  arity_mismatch_raises (fun _ _ => false) [⟨"A", 0⟩, ⟨"A", 1⟩, ⟨"B", 2⟩] []
    ["point_id", "polygon_id"] "geometry"
    ⟨"A", "NaN-NaN", [0, 1]⟩ ⟨"B", "NaN", [2]⟩
    (by decide) (by decide) (by decide)

/-- C9: `do_sjoin` always ends with the left geometry column name in
keep_columns: when absent it is appended (once, at the end), and when
already present the list is unchanged — never appended a second time. -/
theorem do_sjoin_retains_geometry_column {G : Type} (pred : G → G → Bool)
    (pnts : List (PntRec G)) (pgons : List (PgonRec G)) (kc : List String)
    (geomName : String) (fill : String) :
    geomName ∈ (do_sjoin pred pnts pgons kc geomName fill).2 ∧
    (geomName ∉ kc →
      (do_sjoin pred pnts pgons kc geomName fill).2 = kc ++ [geomName]) ∧
    (geomName ∈ kc → (do_sjoin pred pnts pgons kc geomName fill).2 = kc) :=
  ⟨updateKeep_mem geomName kc,
   fun h => updateKeep_of_not_mem geomName kc h,
   fun h => updateKeep_of_mem geomName kc h⟩

/-- Witness for C9 at concrete inputs (one call with the geometry name
absent, discharging the first implication). -/
theorem do_sjoin_retains_geometry_column_witness :
    ("geometry" ∈ (do_sjoin (G := Nat) (fun _ _ => false) [] []
        ["point_id", "polygon_id"] "geometry" "NaN").2 ∧
      ("geometry" ∉ ["point_id", "polygon_id"] →
        (do_sjoin (G := Nat) (fun _ _ => false) [] []
          ["point_id", "polygon_id"] "geometry" "NaN").2
          = ["point_id", "polygon_id"] ++ ["geometry"]) ∧
      ("geometry" ∈ ["point_id", "polygon_id"] →
        (do_sjoin (G := Nat) (fun _ _ => false) [] []
          ["point_id", "polygon_id"] "geometry" "NaN").2
          = ["point_id", "polygon_id"])) ∧
    ("geometry" ∈ (do_sjoin (G := Nat) (fun _ _ => false) [] []
        ["point_id", "geometry"] "geometry" "NaN").2 ∧
      ("geometry" ∉ ["point_id", "geometry"] →
        (do_sjoin (G := Nat) (fun _ _ => false) [] []
          ["point_id", "geometry"] "geometry" "NaN").2
          = ["point_id", "geometry"] ++ ["geometry"]) ∧
      ("geometry" ∈ ["point_id", "geometry"] →
        (do_sjoin (G := Nat) (fun _ _ => false) [] []
          ["point_id", "geometry"] "geometry" "NaN").2
          = ["point_id", "geometry"])) :=
  ⟨do_sjoin_retains_geometry_column (fun _ _ => false) [] []
      ["point_id", "polygon_id"] "geometry" "NaN",
   do_sjoin_retains_geometry_column (fun _ _ => false) [] []
      ["point_id", "geometry"] "geometry" "NaN"⟩

/-- C10: the folded tuples are assigned positionally into a shell indexed
by the points input, so with duplicate point ids the number of groups is
strictly smaller than the number of points and the call raises the shell
shape error rather than returning a table with fewer rows. -/
theorem duplicate_ptids_raise {G : Type} [DecidableEq G]
    (pred : G → G → Bool) (pnts : List (PntRec G)) (pgons : List (PgonRec G))
    (kc : List String) (geomName : String)
    (hdup : ¬(pnts.map PntRec.ptid).Nodup) :
    (ndFolded pred pnts pgons).length < pnts.length ∧
    (nd_intersects pred pnts pgons kc geomName).1
      = Except.error shellShapeError := by
  have hlen : (ndFolded pred pnts pgons).length < pnts.length := by
    have h := congrArg List.length
      (foldedRows_map_ptid (sjoinRows pred pnts pgons "NaN"))
    rw [List.length_map] at h
    rw [ndFolded, h, groupKeys_sjoin, sortBy_length]
    have hlt := firstDedup_length_lt (pnts.map PntRec.ptid) hdup
    rw [List.length_map] at hlt
    exact hlt
  exact ⟨hlen, nd_intersects_error_of_not_fits pred pnts pgons kc geomName
    (fun hfit => absurd hfit.1 (Nat.ne_of_lt hlen))⟩

/-- Witness for C10 at a concrete input with a duplicated point id. -/
theorem duplicate_ptids_raise_witness :
    (ndFolded (G := Nat) (fun _ _ => false) [⟨"A", 0⟩, ⟨"A", 1⟩] []).length
        < ([⟨"A", 0⟩, ⟨"A", 1⟩] : List (PntRec Nat)).length ∧
    (nd_intersects (G := Nat) (fun _ _ => false) [⟨"A", 0⟩, ⟨"A", 1⟩] []
        ["point_id", "polygon_id"] "geometry").1
      = Except.error shellShapeError :=
  duplicate_ptids_raise (fun _ _ => false) [⟨"A", 0⟩, ⟨"A", 1⟩] []
    ["point_id", "polygon_id"] "geometry" (by decide)
